import Mathlib

/-!
Verification of the blockchain-address-watcher CDC consumer core
(`engine/consumer/reader.go` and the standalone parser copy).

The Go code is shallowly embedded: `time.Duration` values are natural
numbers of nanoseconds, `time.Time` is a wrapper around milliseconds
since the epoch (as produced by `time.UnixMilli`), Go `nil` pointers are
`Option`, and fallible Go functions return `Except`/`Option` results.
The `encoding/json` unmarshal step is abstracted as an
`Option DebeziumMessage` input (`none` = unmarshal failure), shared by
both copies of the parser.
-/

namespace Watcher

/-- A Go `time.Duration`: an integer count of nanoseconds. -/
abbrev Duration := Nat

/-- One second, in nanoseconds (Go `time.Second`). -/
def second : Duration := 1000000000

/-- A Go `time.Time`, represented by its milliseconds since the Unix
epoch (sufficient for values built with `time.UnixMilli`). -/
structure GoTime where
  millis : Int
deriving DecidableEq, Repr

/-- Go `time.UnixMilli`: the instant `ms` milliseconds after the epoch. -/
def timeUnixMilli (ms : Int) : GoTime := ⟨ms⟩

/-- The row image `objects.User` from `engine/models/user.go`. -/
structure User where
  id : String
  email : String
  passwordHash : String
  phoneNo : String
  walletAddress : String
  subscribed : Bool
  createdAt : GoTime
  updatedAt : GoTime
  deletedAt : Option GoTime
deriving DecidableEq, Repr

/-- The `SourceInfo` metadata struct from `reader.go`. -/
structure SourceInfo where
  version : String
  connector : String
  name : String
  tsMs : Int
  tsUs : Int
  tsNs : Int
  snapshot : Bool
  db : String
  sequence : String
  schema : String
  table : String
  txId : String
  lsn : Int
deriving DecidableEq, Repr

/-- A field of the (informational, ignored) Debezium schema block. -/
structure DebeziumSchemaField where
  type : String
  field : String
  optional : Bool
deriving DecidableEq, Repr

/-- The (informational, ignored) Debezium schema block. -/
structure DebeziumSchema where
  type : String
  fields : List DebeziumSchemaField
  optional : Bool
  name : String
  version : Int
deriving DecidableEq, Repr

/-- The `DebeziumPayload` struct: before/after row images, source
metadata, operation code and the millisecond timestamps. -/
structure DebeziumPayload where
  before : Option User
  after : Option User
  source : SourceInfo
  operation : String
  tsMs : Int
  tsUs : Int
  tsNs : Int
deriving DecidableEq, Repr

/-- The raw `DebeziumMessage` envelope: schema block plus payload. -/
structure DebeziumMessage where
  schema : DebeziumSchema
  payload : DebeziumPayload
deriving DecidableEq, Repr

/-- The decoded domain `Event` struct from `reader.go`. -/
structure Event where
  operation : String
  before : Option User
  after : Option User
  source : SourceInfo
  timestamp : GoTime
deriving DecidableEq, Repr

/-- Classification of the errors `parseDebeziumMessage` can return, one
constructor per distinct `fmt.Errorf` site, carrying the values the
format string names. -/
inductive DecodeError where
  /-- failed to unmarshal Debezium message -/
  | unmarshalFailed
  /-- missing operation type in payload -/
  | missingOperation
  /-- missing 'after' data for operation `op` (op is "c" or "r") -/
  | missingAfter (op : String)
  /-- missing 'before' or 'after' data for operation 'u' -/
  | missingBeforeOrAfter
  /-- missing 'before' data for operation 'd' -/
  | missingBefore
  /-- unknown operation type: `op` -/
  | unknownOperation (op : String)
deriving DecidableEq, Repr

/-- The consumer package's `parseDebeziumMessage` (reader.go lines
158-198).  The input is the result of `json.Unmarshal` on the raw
bytes: `none` stands for bytes that do not unmarshal. -/
def parseDebeziumMessage (data : Option DebeziumMessage) : Except DecodeError Event :=
  match data with
  | none => .error .unmarshalFailed
  | some msg =>
    let operation := msg.payload.operation
    if operation = "" then
      .error .missingOperation
    else
      let event : Event :=
        { operation := operation
          before := msg.payload.before
          after := msg.payload.after
          source := msg.payload.source
          timestamp := timeUnixMilli msg.payload.tsMs }
      if operation = "c" ∨ operation = "r" then
        if event.after = none then
          .error (.missingAfter operation)
        else
          .ok event
      else if operation = "u" then
        if event.before = none ∨ event.after = none then
          .error .missingBeforeOrAfter
        else
          .ok event
      else if operation = "d" then
        if event.before = none then
          .error .missingBefore
        else
          .ok event
      else
        .error (.unknownOperation operation)

/-- The `parser` package's standalone copy of `parseDebeziumMessage`
(src/unnamed/part_005 lines 12-52), embedded separately from its own
source text so the two copies can be compared. -/
def parserParseDebeziumMessage (data : Option DebeziumMessage) : Except DecodeError Event :=
  match data with
  | none => .error .unmarshalFailed
  | some msg =>
    let operation := msg.payload.operation
    if operation = "" then
      .error .missingOperation
    else
      let event : Event :=
        { operation := operation
          before := msg.payload.before
          after := msg.payload.after
          source := msg.payload.source
          timestamp := timeUnixMilli msg.payload.tsMs }
      if operation = "c" ∨ operation = "r" then
        if event.after = none then
          .error (.missingAfter operation)
        else
          .ok event
      else if operation = "u" then
        if event.before = none ∨ event.after = none then
          .error .missingBeforeOrAfter
        else
          .ok event
      else if operation = "d" then
        if event.before = none then
          .error .missingBefore
        else
          .ok event
      else
        .error (.unknownOperation operation)

/-- An abstract error returned by a single `connect` attempt (the Go
code wraps a `kafka.DialLeader` failure). -/
structure ConnFailure where
  code : Nat
deriving DecidableEq, Repr

/-- Errors surfaced by the manager API, one constructor per distinct
`fmt.Errorf` site the claims mention. -/
inductive MgrError where
  /-- config cannot be nil -/
  | nilConfig
  /-- KafkaManager cannot be nil -/
  | nilManager
  /-- event handler cannot be nil -/
  | nilHandler
  /-- connection manager is closed -/
  | managerClosed
  /-- connection is not alive -/
  | notAlive
  /-- failed to connect after `attempts` attempts, wrapping `last` -/
  | connectExhausted (attempts : Nat) (last : Option ConnFailure)
deriving DecidableEq, Repr

/-- The `Config` struct of the consumer package. -/
structure Config where
  broker : String
  topic : String
  partition : Nat
  maxRetries : Nat
  retryDelay : Duration
  healthCheckFreq : Duration
deriving DecidableEq, Repr

/-- The zero-field defaulting performed at the top of `NewKafkaManager`
(reader.go): `MaxRetries=5`, `RetryDelay=1s`, `HealthCheckFreq=30s`
when the corresponding field is zero, other fields untouched. -/
def normalizeConfig (c : Config) : Config :=
  let c := if c.maxRetries = 0 then { c with maxRetries := 5 } else c
  let c := if c.retryDelay = 0 then { c with retryDelay := 1 * second } else c
  let c := if c.healthCheckFreq = 0 then { c with healthCheckFreq := 30 * second } else c
  c

deriving instance DecidableEq for Except

/-- Observable outcome of one run of `connectWithRetry`: how many
`connect` attempts were made, the backoff sleeps performed (in order),
and the returned value. -/
structure RetryTrace where
  attempts : Nat
  sleeps : List Duration
  result : Except MgrError Unit
deriving DecidableEq, Repr

/-- The loop body of `connectWithRetry` from iteration `i` on, with the
last error seen so far.  A connect oracle `oracle i` gives the outcome
of the `i`-th (zero-indexed) `km.connect()` call: `some e` is a
failure, `none` a success. -/
def connectWithRetryFrom (oracle : Nat → Option ConnFailure) (maxRetries : Nat)
    (delay : Duration) (i : Nat) (lastErr : Option ConnFailure) : RetryTrace :=
  if _h : i < maxRetries then
    match oracle i with
    | some e =>
      let rest := connectWithRetryFrom oracle maxRetries delay (i + 1) (some e)
      { attempts := rest.attempts + 1
        sleeps := delay * 2 ^ i :: rest.sleeps
        result := rest.result }
    | none =>
      { attempts := 1, sleeps := [], result := .ok () }
  else
    { attempts := 0, sleeps := [], result := .error (.connectExhausted maxRetries lastErr) }
termination_by maxRetries - i

/-- `(*KafkaManager).connectWithRetry` (reader.go lines 314-334): up to
`maxRetries` attempts, sleeping `delay * 2^i` after the `i`-th failed
attempt, returning nil on the first success and otherwise an error
carrying the attempt bound and wrapping the last failure. -/
def connectWithRetry (oracle : Nat → Option ConnFailure) (maxRetries : Nat)
    (delay : Duration) : RetryTrace :=
  connectWithRetryFrom oracle maxRetries delay 0 none

/-- The mutable state of a `KafkaManager`: the (nullable) connection
handle, the stored config, the closed flag, the diagnostic retry
counter and whether the `healthCheck` shutdown channel is still open. -/
structure KMState where
  conn : Option Nat
  config : Config
  isClosed : Bool
  retryCount : Nat
  healthCheckOpen : Bool
deriving DecidableEq, Repr

/-- `NewKafkaManager` (reader.go lines 260-290): rejects a nil config,
normalizes zero-valued fields, performs the initial
`connectWithRetry` (attempt outcomes given by `oracle`, a successful
dial producing handle `newConn`), and on success returns the live
manager state; the background health-check goroutine is started with
the channel open. -/
def newKafkaManager (config : Option Config) (oracle : Nat → Option ConnFailure)
    (newConn : Nat) : Except MgrError KMState :=
  match config with
  | none => .error .nilConfig
  | some c =>
    let c := normalizeConfig c
    let trace := connectWithRetry oracle c.maxRetries c.retryDelay
    match trace.result with
    | .error e => .error e
    | .ok _ =>
      .ok { conn := some newConn
            config := c
            isClosed := false
            retryCount := trace.sleeps.length
            healthCheckOpen := true }

/-- Externally visible side effects of a `Close` call. -/
inductive CloseAction where
  /-- the `healthCheck` shutdown channel was closed -/
  | closedHealthChannel
  /-- `conn.Close()` was called on connection handle `c` -/
  | closedConn (c : Nat)
deriving DecidableEq, Repr

/-- `(*KafkaManager).Close` (reader.go lines 382-399): returns nil with
no side effects when already closed; otherwise sets the closed flag,
closes the `healthCheck` channel, and closes the live connection if
present, returning that close's result (`connCloseErr`). -/
def close (s : KMState) (connCloseErr : Option ConnFailure) :
    KMState × List CloseAction × Option ConnFailure :=
  if s.isClosed then
    (s, [], none)
  else
    let s' := { s with isClosed := true, healthCheckOpen := false }
    match s.conn with
    | some c => (s', [.closedHealthChannel, .closedConn c], connCloseErr)
    | none => (s', [.closedHealthChannel], none)

/-- `(*KafkaManager).isConnectionAlive`: false when there is no
connection or the manager is closed, else the result of the
`Brokers()` metadata probe (`brokersOk`). -/
def isConnectionAlive (s : KMState) (brokersOk : Bool) : Bool :=
  if s.conn = none ∨ s.isClosed then false else brokersOk

/-- `(*KafkaManager).GetConnection` (reader.go lines 337-362): fails
with the manager-closed error when closed; returns the current
connection when present and alive; otherwise runs `connectWithRetry`
(outcomes from `oracle`, success yielding handle `newConn`) and
returns the refreshed connection or the retry failure. -/
def getConnection (s : KMState) (brokersOk : Bool) (oracle : Nat → Option ConnFailure)
    (newConn : Nat) : Except MgrError Nat :=
  if s.isClosed then
    .error .managerClosed
  else
    match s.conn with
    | some c =>
      if isConnectionAlive s brokersOk then
        .ok c
      else
        match (connectWithRetry oracle s.config.maxRetries s.config.retryDelay).result with
        | .error e => .error e
        | .ok _ => .ok newConn
    | none =>
      match (connectWithRetry oracle s.config.maxRetries s.config.retryDelay).result with
      | .error e => .error e
      | .ok _ => .ok newConn

/-- `(*KafkaManager).HealthCheck`: manager-closed error when closed,
not-alive error when the liveness probe fails, nil otherwise. -/
def healthCheck (s : KMState) (brokersOk : Bool) : Option MgrError :=
  if s.isClosed then some .managerClosed
  else if ¬ isConnectionAlive s brokersOk then some .notAlive
  else none

/-- An event handler callback (`EventHandler`): processes an event and
returns `some err` on failure, `none` on success. -/
abbrev Handler := Event → Option String

/-- Outcome of one `r.ReadMessage(ctx)` call as observed by the `Read`
loop: either an error (with the value of `ctx.Err() != nil` sampled
right after it), or a delivered record whose `Value` bytes are
abstracted by their unmarshal result. -/
inductive FetchOutcome where
  | fetchErr (ctxDoneAfter : Bool)
  | record (value : Option DebeziumMessage)
deriving DecidableEq, Repr

/-- The environment of one iteration of the `Read` loop: whether the
`select` sees `ctx.Done()` fire at the top, and what the fetch would
return if reached. -/
structure ReadIter where
  ctxDoneAtTop : Bool
  outcome : FetchOutcome
deriving DecidableEq, Repr

/-- What the `Read` loop did with one iteration. -/
inductive ReadEvent where
  /-- fetch error with live context: logged, slept 1s, retried -/
  | fetchErrSleep
  /-- decode failed with `e`: record skipped, loop continues -/
  | decodeSkipped (e : DecodeError)
  /-- decode succeeded; the handler was invoked on `ev` and returned
  `herr` (logged when `some`, never aborting the loop) -/
  | handled (ev : Event) (herr : Option String)
deriving DecidableEq, Repr

/-- How a (finitely scripted) run of the `Read` loop ended. -/
inductive ReadOutcome where
  /-- the loop returned `ctx.Err()` -/
  | cancelled
  /-- the script is exhausted with the loop still running, about to
  request the next fetch -/
  | running
deriving DecidableEq, Repr

/-- The reading loop of `Read` (reader.go lines 115-155), scripted over
a finite list of iteration environments: `select` on `ctx.Done` first,
then one fetch; a fetch error returns `ctx.Err()` when the context is
done and otherwise sleeps 1s and retries; a decode failure skips the
record; a handler error is logged but the loop proceeds. -/
def readLoop (handler : Handler) : List ReadIter → List ReadEvent × ReadOutcome
  | [] => ([], .running)
  | it :: rest =>
    if it.ctxDoneAtTop then
      ([], .cancelled)
    else
      match it.outcome with
      | .fetchErr ctxDoneAfter =>
        if ctxDoneAfter then
          ([], .cancelled)
        else
          let p := readLoop handler rest
          (.fetchErrSleep :: p.1, p.2)
      | .record v =>
        match parseDebeziumMessage v with
        | .error e =>
          let p := readLoop handler rest
          (.decodeSkipped e :: p.1, p.2)
        | .ok ev =>
          let herr := handler ev
          let p := readLoop handler rest
          (.handled ev herr :: p.1, p.2)

/-- Setup-phase side effects of a `Read` call that are visible before
the loop starts. -/
inductive ReadSetup where
  /-- a `kafka.NewReader` subscription was opened on the manager's
  broker and topic -/
  | openedSubscription (broker topic : String)
deriving DecidableEq, Repr

/-- `Read` (reader.go lines 97-155): nil-argument checks first (failing
immediately, before any subscription is opened or fetch attempted),
then the reader subscription is created and the loop runs. -/
def read (km : Option KMState) (handler : Option Handler) (script : List ReadIter) :
    List ReadSetup × Except MgrError (List ReadEvent × ReadOutcome) :=
  match km with
  | none => ([], .error .nilManager)
  | some s =>
    match handler with
    | none => ([], .error .nilHandler)
    | some h =>
      ([.openedSubscription s.config.broker s.config.topic], .ok (readLoop h script))

/-- The environment of one iteration of the `ReadWithRetry` loop:
whether `ctx.Done` fires at the top of the `select`, the value `Read`
returns if invoked (`none` = nil), and the value of `ctx.Err() != nil`
sampled after a failing `Read`. -/
structure RetryIter where
  ctxDoneAtTop : Bool
  readResult : Option String
  ctxDoneAfterErr : Bool
deriving DecidableEq, Repr

/-- How a (finitely scripted) run of `ReadWithRetry` ended. -/
inductive RetryOutcome where
  /-- returned `ctx.Err()` -/
  | ctxErr
  /-- `Read` returned nil and the wrapper returned nil -/
  | cleanNil
  /-- script exhausted with the wrapper still looping -/
  | pending
deriving DecidableEq, Repr

/-- The loop of `ReadWithRetry` (reader.go lines 202-224) over a finite
script, recording the retry sleeps performed. -/
def readWithRetryLoop (delay : Duration) : List RetryIter → List Duration × RetryOutcome
  | [] => ([], .pending)
  | it :: rest =>
    if it.ctxDoneAtTop then
      ([], .ctxErr)
    else
      match it.readResult with
      | some _ =>
        if it.ctxDoneAfterErr then
          ([], .ctxErr)
        else
          let p := readWithRetryLoop delay rest
          (delay :: p.1, p.2)
      | none => ([], .cleanNil)

/-- `ReadWithRetry` (reader.go lines 202-224): normalizes a zero
`retryDelay` to 5s, then runs the retry loop with the normalized
delay.  The first component of the result is the delay actually used. -/
def readWithRetry (retryDelay : Duration) (script : List RetryIter) :
    Duration × List Duration × RetryOutcome :=
  let d := if retryDelay = 0 then 5 * second else retryDelay
  (d, readWithRetryLoop d script)

/-! Concrete inputs used to exercise the definitions. -/

/-- A sample source-metadata block. -/
def sampleSource : SourceInfo :=
  { version := "2.5", connector := "postgresql", name := "watcher", tsMs := 1000,
    tsUs := 1000000, tsNs := 1000000000, snapshot := false, db := "watcherdb",
    sequence := "", schema := "public", table := "users", txId := "", lsn := 0 }

/-- A sample (ignored) schema block. -/
def sampleSchema : DebeziumSchema :=
  { type := "struct", fields := [], optional := false, name := "env", version := 1 }

/-- A sample row image. -/
def sampleUser : User :=
  { id := "u1", email := "a@example.com", passwordHash := "h1", phoneNo := "111",
    walletAddress := "0xaaa", subscribed := true, createdAt := ⟨0⟩, updatedAt := ⟨0⟩,
    deletedAt := none }

/-- A second, distinct row image. -/
def sampleUser2 : User :=
  { id := "u2", email := "b@example.com", passwordHash := "h2", phoneNo := "222",
    walletAddress := "0xbbb", subscribed := false, createdAt := ⟨1⟩, updatedAt := ⟨1⟩,
    deletedAt := none }

/-- Builds an envelope with the given operation, images and ts_ms. -/
def mkMsg (op : String) (before after : Option User) (ts : Int) : DebeziumMessage :=
  { schema := sampleSchema
    payload := { before := before, after := after, source := sampleSource,
                 operation := op, tsMs := ts, tsUs := 0, tsNs := 0 } }

/-- A create envelope that (unusually) also carries a before image. -/
def cexMsg : DebeziumMessage := mkMsg "c" (some sampleUser) (some sampleUser2) 42

/-- The event the decoder actually produces for `cexMsg`. -/
def cexEvent : Event :=
  { operation := "c", before := some sampleUser, after := some sampleUser2,
    source := sampleSource, timestamp := ⟨42⟩ }

/-- The event decoded from the second record of the three-fetch scenario. -/
def scenEvent2 : Event :=
  { operation := "c", before := none, after := some sampleUser,
    source := sampleSource, timestamp := ⟨5⟩ }

/-- The event decoded from the third record of the three-fetch scenario. -/
def scenEvent3 : Event :=
  { operation := "c", before := none, after := some sampleUser2,
    source := sampleSource, timestamp := ⟨6⟩ }

/-- The scenario handler: fails exactly on the third record's event. -/
def scenHandler : Handler :=
  fun ev => if ev.after = some sampleUser2 then some "handler failed" else none

/-- The three-fetch script: malformed bytes, a valid create record, and
a valid record on which the handler errors; the context stays live. -/
def scenScript : List ReadIter :=
  [ { ctxDoneAtTop := false, outcome := .record none },
    { ctxDoneAtTop := false, outcome := .record (some (mkMsg "c" none (some sampleUser) 5)) },
    { ctxDoneAtTop := false, outcome := .record (some (mkMsg "c" none (some sampleUser2) 6)) } ]

/-- A connect oracle failing on attempts 0 and 1, succeeding from 2 on. -/
def twoFailOracle : Nat → Option ConnFailure :=
  fun j => if j < 2 then some ⟨j⟩ else none

/-- A connect oracle that always fails. -/
def alwaysFailOracle : Nat → Option ConnFailure :=
  fun j => some ⟨j⟩

/-- A sample config with all optional fields left zero. -/
def zeroConfig : Config :=
  { broker := "localhost:9092", topic := "topic", partition := 0,
    maxRetries := 0, retryDelay := 0, healthCheckFreq := 0 }

/-- A sample live manager state holding connection handle 7. -/
def sampleState : KMState :=
  { conn := some 7, config := zeroConfig, isClosed := false, retryCount := 0,
    healthCheckOpen := true }

/-! Theorems. -/

/-- C1: for an input that parses into an envelope, the decoder enforces
the per-operation field-presence table exactly: for op `c`/`r` it
errors iff `after` is nil (with the missing-after error), for `u` iff
`before` or `after` is nil, for `d` iff `before` is nil, any other
non-empty op yields the unknown-operation error naming the value, and
an empty op yields the missing-operation error. -/
theorem decode_presence_table (msg : DebeziumMessage) :
    (msg.payload.operation = "" →
      parseDebeziumMessage (some msg) = .error .missingOperation) ∧
    ((msg.payload.operation = "c" ∨ msg.payload.operation = "r") →
      ((parseDebeziumMessage (some msg)).isOk = false ↔ msg.payload.after = none) ∧
      (msg.payload.after = none →
        parseDebeziumMessage (some msg) = .error (.missingAfter msg.payload.operation))) ∧
    (msg.payload.operation = "u" →
      ((parseDebeziumMessage (some msg)).isOk = false ↔
        (msg.payload.before = none ∨ msg.payload.after = none)) ∧
      ((msg.payload.before = none ∨ msg.payload.after = none) →
        parseDebeziumMessage (some msg) = .error .missingBeforeOrAfter)) ∧
    (msg.payload.operation = "d" →
      ((parseDebeziumMessage (some msg)).isOk = false ↔ msg.payload.before = none) ∧
      (msg.payload.before = none →
        parseDebeziumMessage (some msg) = .error .missingBefore)) ∧
    (msg.payload.operation ≠ "" → msg.payload.operation ≠ "c" →
      msg.payload.operation ≠ "r" → msg.payload.operation ≠ "u" →
      msg.payload.operation ≠ "d" →
      parseDebeziumMessage (some msg) = .error (.unknownOperation msg.payload.operation)) := by
  refine ⟨?_, ?_, ?_, ?_, ?_⟩
  · intro h
    simp [parseDebeziumMessage, h]
  · rintro (h | h) <;> cases hA : msg.payload.after <;>
      simp [parseDebeziumMessage, h, hA, Except.isOk, Except.toBool]
  · intro h
    cases hB : msg.payload.before <;> cases hA : msg.payload.after <;>
      simp [parseDebeziumMessage, h, hB, hA, Except.isOk, Except.toBool]
  · intro h
    cases hB : msg.payload.before <;>
      simp [parseDebeziumMessage, h, hB, Except.isOk, Except.toBool]
  · intro h0 hc hr hu hd
    simp [parseDebeziumMessage, h0, hc, hr, hu, hd]

/-- Witness for C1: decoding an envelope with op `x` fails with the
unknown-operation error naming `x`. -/
theorem decode_presence_table_witness :
    parseDebeziumMessage (some (mkMsg "x" none none 0)) = .error (.unknownOperation "x") :=
  (decode_presence_table (mkMsg "x" none none 0)).2.2.2.2
    (by decide) (by decide) (by decide) (by decide) (by decide)

/-- Counterexample to C2 as stated: a create envelope whose payload
carries a before image decodes successfully with a non-nil before — the
decoder passes the images through, it does not nil out unrequired
slots. -/
theorem decode_before_passthrough_cex :
    parseDebeziumMessage (some cexMsg) = .ok cexEvent ∧
    cexMsg.payload.operation = "c" ∧ cexEvent.before.isSome = true :=
  ⟨rfl, rfl, rfl⟩

/-- C2 (amended): on every successful decode, the event's before and
after equal the payload's before and after images (so they are nil
exactly when the payload slot is null), the operation equals the
payload's op, the source equals the payload's source, and the
timestamp is the payload's ts_ms converted via UnixMilli. -/
theorem decode_success_passthrough (msg : DebeziumMessage) (e : Event)
    (h : parseDebeziumMessage (some msg) = .ok e) :
    e.operation = msg.payload.operation ∧ e.before = msg.payload.before ∧
    e.after = msg.payload.after ∧ e.source = msg.payload.source ∧
    e.timestamp = timeUnixMilli msg.payload.tsMs := by
  simp only [parseDebeziumMessage] at h
  split_ifs at h <;>
    first
      | exact Except.noConfusion h
      | (injection h with h2; subst h2; exact ⟨rfl, rfl, rfl, rfl, rfl⟩)

/-- Witness for C2: the passthrough equalities hold on the concrete
create envelope `cexMsg`. -/
theorem decode_success_passthrough_witness :
    cexEvent.operation = cexMsg.payload.operation ∧
    cexEvent.before = cexMsg.payload.before ∧
    cexEvent.after = cexMsg.payload.after ∧
    cexEvent.source = cexMsg.payload.source ∧
    cexEvent.timestamp = timeUnixMilli cexMsg.payload.tsMs :=
  decode_success_passthrough cexMsg cexEvent rfl

/-- C9: the decoder is deterministic — equal inputs give equal results;
its embedding takes no state besides the input bytes, so there is no
shared state to depend on or mutate. -/
theorem parse_deterministic (d₁ d₂ : Option DebeziumMessage) (h : d₁ = d₂) :
    parseDebeziumMessage d₁ = parseDebeziumMessage d₂ := by
  rw [h]

/-- Witness for C9: determinism at a concrete input. -/
theorem parse_deterministic_witness :
    parseDebeziumMessage (some cexMsg) = parseDebeziumMessage (some cexMsg) :=
  parse_deterministic (some cexMsg) (some cexMsg) rfl

/-- C10: the standalone parser-package copy of the decoder and the
consumer's decoder agree on every input. -/
theorem parser_copy_equiv (data : Option DebeziumMessage) :
    parserParseDebeziumMessage data = parseDebeziumMessage data := rfl

/-- Peeling the first entry off a mapped range. -/
lemma range_map_shift (f : Nat → Nat) (k : Nat) :
    (List.range (k + 1)).map f = f 0 :: (List.range k).map (fun j => f (j + 1)) := by
  rw [List.range_succ_eq_map, List.map_cons, List.map_map]
  rfl

/-- Unrolling `connectWithRetryFrom` when the oracle fails on the `k`
attempts starting at `i` and succeeds on attempt `i + k`: `k + 1`
attempts are made, with a backoff sleep after each failure. -/
lemma connectWithRetryFrom_success (oracle : Nat → Option ConnFailure) (M delay : Nat) :
    ∀ (k i : Nat) (lastErr : Option ConnFailure),
      (∀ j, j < k → oracle (i + j) ≠ none) → oracle (i + k) = none → i + k < M →
      connectWithRetryFrom oracle M delay i lastErr =
        { attempts := k + 1,
          sleeps := (List.range k).map (fun j => delay * 2 ^ (i + j)),
          result := .ok () } := by
  intro k
  induction k with
  | zero =>
    intro i lastErr _ hsucc hlt
    have hi : i < M := by omega
    simp only [Nat.add_zero] at hsucc
    rw [connectWithRetryFrom, dif_pos hi, hsucc]
    simp
  | succ k ih =>
    intro i lastErr hfail hsucc hlt
    have hi : i < M := by omega
    have h0 : oracle i ≠ none := by
      have h := hfail 0 (Nat.succ_pos k)
      simpa using h
    obtain ⟨e, he⟩ : ∃ e, oracle i = some e := by
      cases hcase : oracle i with
      | none => exact absurd hcase h0
      | some e => exact ⟨e, rfl⟩
    have hrest := ih (i + 1) (some e)
      (fun j hj => by
        have h := hfail (j + 1) (by omega)
        have harith : i + (j + 1) = i + 1 + j := by omega
        rw [harith] at h
        exact h)
      (by
        have harith : i + (k + 1) = i + 1 + k := by omega
        rw [harith] at hsucc
        exact hsucc)
      (by omega)
    rw [connectWithRetryFrom, dif_pos hi, he]
    simp only [hrest]
    simp only [RetryTrace.mk.injEq]
    refine ⟨trivial, ?_, trivial⟩
    rw [range_map_shift (fun j => delay * 2 ^ (i + j)) k]
    simp only [Nat.add_zero, List.cons.injEq]
    refine ⟨trivial, List.map_congr_left ?_⟩
    intro j _
    have harith : i + 1 + j = i + (j + 1) := by omega
    rw [harith]

/-- Unrolling `connectWithRetryFrom` when the oracle fails on every
attempt from `i` up to the retry bound: exactly the remaining `n`
attempts are made and the exhaustion error wraps the last failure. -/
lemma connectWithRetryFrom_allFail (oracle : Nat → Option ConnFailure) (M delay : Nat) :
    ∀ (n i : Nat) (lastErr : Option ConnFailure), M = i + n →
      (∀ j, i ≤ j → j < M → oracle j ≠ none) →
      connectWithRetryFrom oracle M delay i lastErr =
        { attempts := n,
          sleeps := (List.range n).map (fun j => delay * 2 ^ (i + j)),
          result := .error (.connectExhausted M
            (if n = 0 then lastErr else oracle (M - 1))) } := by
  intro n
  induction n with
  | zero =>
    intro i lastErr hM _
    have hi : ¬ i < M := by omega
    rw [connectWithRetryFrom, dif_neg hi]
    simp
  | succ n ih =>
    intro i lastErr hM hfail
    have hi : i < M := by omega
    have h0 : oracle i ≠ none := hfail i (le_refl i) hi
    obtain ⟨e, he⟩ : ∃ e, oracle i = some e := by
      cases hcase : oracle i with
      | none => exact absurd hcase h0
      | some e => exact ⟨e, rfl⟩
    have hrest := ih (i + 1) (some e) (by omega) (fun j hj1 hj2 => hfail j (by omega) hj2)
    rw [connectWithRetryFrom, dif_pos hi, he]
    simp only [hrest]
    simp only [RetryTrace.mk.injEq]
    refine ⟨trivial, ?_, ?_⟩
    · rw [range_map_shift (fun j => delay * 2 ^ (i + j)) n]
      simp only [Nat.add_zero, List.cons.injEq]
      refine ⟨trivial, List.map_congr_left ?_⟩
      intro j _
      have harith : i + 1 + j = i + (j + 1) := by omega
      rw [harith]
    · by_cases hn : n = 0
      · subst hn
        have hMi : M - 1 = i := by omega
        simp [hMi, he]
      · simp [hn]

/-- C4: `connectWithRetry` with `MaxRetries = M ≥ 1`: when the connect
oracle fails on the first `N - 1` calls and succeeds on the `N`-th
(`1 ≤ N ≤ M`) it performs exactly `N` attempts with sleeps
`delay * 2^0, delay * 2^1, ...` after the failed ones and returns nil;
when the oracle fails on every call it performs exactly `M` attempts
and returns an error wrapping the last failure and referencing the
attempt count `M`. -/
theorem connectWithRetry_spec (oracle : Nat → Option ConnFailure) (M delay N : Nat)
    (hM : 1 ≤ M) :
    (1 ≤ N → N ≤ M → (∀ j, j < N - 1 → oracle j ≠ none) → oracle (N - 1) = none →
      connectWithRetry oracle M delay =
        { attempts := N, sleeps := (List.range (N - 1)).map (fun i => delay * 2 ^ i),
          result := .ok () }) ∧
    ((∀ j, j < M → oracle j ≠ none) →
      connectWithRetry oracle M delay =
        { attempts := M, sleeps := (List.range M).map (fun i => delay * 2 ^ i),
          result := .error (.connectExhausted M (oracle (M - 1))) }) := by
  constructor
  · intro hN hNM hfail hsucc
    have h := connectWithRetryFrom_success oracle M delay (N - 1) 0 none
      (fun j hj => by simpa using hfail j hj)
      (by simpa using hsucc)
      (by omega)
    rw [connectWithRetry, h]
    simp only [RetryTrace.mk.injEq]
    refine ⟨by omega, List.map_congr_left ?_, trivial⟩
    intro j _
    rw [Nat.zero_add]
  · intro hfail
    have h := connectWithRetryFrom_allFail oracle M delay M 0 none (by omega)
      (fun j _ hj => hfail j hj)
    rw [connectWithRetry, h]
    have hM0 : M ≠ 0 := by omega
    simp only [RetryTrace.mk.injEq]
    refine ⟨trivial, List.map_congr_left ?_, ?_⟩
    · intro j _
      rw [Nat.zero_add]
    · simp [hM0]

/-- Witness for C4: with an oracle failing twice then succeeding,
`MaxRetries = 5` and `RetryDelay` one second, the manager connects on
the third attempt after sleeps of one and two seconds. -/
theorem connectWithRetry_spec_witness :
    connectWithRetry twoFailOracle 5 second =
      { attempts := 3, sleeps := (List.range 2).map (fun i => second * 2 ^ i),
        result := .ok () } :=
  (connectWithRetry_spec twoFailOracle 5 second 3 (by omega)).1 (by omega) (by omega)
    (fun j hj => by
      have h2 : j < 2 := by omega
      simp [twoFailOracle, h2])
    (by simp [twoFailOracle])

/-- An iteration environment that never shows the loop a done context:
the top-of-loop `select` does not fire and a fetch error is not
accompanied by a cancelled context. -/
def liveIter (it : ReadIter) : Prop :=
  it.ctxDoneAtTop = false ∧ it.outcome ≠ .fetchErr true

instance (it : ReadIter) : Decidable (liveIter it) := by
  unfold liveIter
  infer_instance

/-- With a live context throughout, the `Read` loop consumes its whole
script and keeps running. -/
lemma readLoop_running_of_live (handler : Handler) :
    ∀ script : List ReadIter, (∀ it ∈ script, liveIter it) →
      (readLoop handler script).2 = .running := by
  intro script
  induction script with
  | nil => intro _; rfl
  | cons it rest ih =>
    intro h
    obtain ⟨hTop, hErr⟩ := h it (List.mem_cons_self it rest)
    have hrest := ih (fun it' hm => h it' (List.mem_cons_of_mem it hm))
    cases hOut : it.outcome with
    | fetchErr b =>
      cases b with
      | false => simp [readLoop, hTop, hOut, hrest]
      | true => exact absurd hOut (by rw [hOut] at hErr; exact absurd rfl hErr)
    | record v =>
      cases hP : parseDebeziumMessage v with
      | error e => simp [readLoop, hTop, hOut, hP, hrest]
      | ok ev => simp [readLoop, hTop, hOut, hP, hrest]

/-- The `Read` loop reports cancellation only when some iteration
actually showed it a done context. -/
lemma readLoop_cancelled_source (handler : Handler) :
    ∀ script : List ReadIter, (readLoop handler script).2 = .cancelled →
      ∃ it ∈ script, it.ctxDoneAtTop = true ∨ it.outcome = .fetchErr true := by
  intro script
  induction script with
  | nil => intro h; exact absurd h (by simp [readLoop])
  | cons it rest ih =>
    intro h
    cases hTop : it.ctxDoneAtTop with
    | true => exact ⟨it, List.mem_cons_self it rest, Or.inl hTop⟩
    | false =>
      cases hOut : it.outcome with
      | fetchErr b =>
        cases b with
        | true => exact ⟨it, List.mem_cons_self it rest, Or.inr hOut⟩
        | false =>
          simp only [readLoop, hTop, hOut] at h
          simp only [Bool.false_eq_true, if_false] at h
          obtain ⟨it', hm, hc⟩ := ih h
          exact ⟨it', List.mem_cons_of_mem it hm, hc⟩
      | record v =>
        cases hP : parseDebeziumMessage v with
        | error e =>
          simp only [readLoop, hTop, hOut, hP] at h
          simp only [Bool.false_eq_true, if_false] at h
          obtain ⟨it', hm, hc⟩ := ih h
          exact ⟨it', List.mem_cons_of_mem it hm, hc⟩
        | ok ev =>
          simp only [readLoop, hTop, hOut, hP] at h
          simp only [Bool.false_eq_true, if_false] at h
          obtain ⟨it', hm, hc⟩ := ih h
          exact ⟨it', List.mem_cons_of_mem it hm, hc⟩

/-- C3: with a live (non-cancelled) context no fetch failure, decode
failure or handler error terminates the `Read` loop; the loop reports
the context's cancellation error precisely when some iteration showed
it a done context; and on the concrete three-fetch script (malformed
bytes, a valid create record, a record whose handler errors) it skips
record 1, delivers record 2, tolerates record 3's handler error and
keeps running, about to request a fourth fetch. -/
theorem read_loop_resilient (handler : Handler) (script : List ReadIter) :
    ((∀ it ∈ script, liveIter it) → (readLoop handler script).2 = .running) ∧
    ((readLoop handler script).2 = .cancelled →
      ∃ it ∈ script, it.ctxDoneAtTop = true ∨ it.outcome = .fetchErr true) ∧
    readLoop scenHandler scenScript =
      ([.decodeSkipped .unmarshalFailed, .handled scenEvent2 none,
        .handled scenEvent3 (some "handler failed")], .running) := by
  refine ⟨readLoop_running_of_live handler script,
    readLoop_cancelled_source handler script, ?_⟩
  rfl

/-- Witness for C3: the three-fetch scenario script is live, so the
loop is still running after it. -/
theorem read_loop_resilient_witness :
    (readLoop scenHandler scenScript).2 = .running :=
  (read_loop_resilient scenHandler scenScript).1 (by decide)

/-- C5: `Close` is idempotent.  On a live manager the first call sets
the closed flag, stops the health-check loop (closes its channel) and
closes the live connection if one is present; a second call returns
nil with no side effects and no second connection close; and after the
first call `GetConnection` and `HealthCheck` fail with the
manager-closed error. -/
theorem close_idempotent (s : KMState) (e₁ e₂ : Option ConnFailure) (b : Bool)
    (oracle : Nat → Option ConnFailure) (nc : Nat) (hOpen : s.isClosed = false) :
    (close s e₁).1.isClosed = true ∧
    (close s e₁).1.healthCheckOpen = false ∧
    (∀ c, s.conn = some c → (close s e₁).2.1 = [.closedHealthChannel, .closedConn c]) ∧
    (s.conn = none → (close s e₁).2.1 = [.closedHealthChannel]) ∧
    close (close s e₁).1 e₂ = ((close s e₁).1, [], none) ∧
    getConnection (close s e₁).1 b oracle nc = .error .managerClosed ∧
    healthCheck (close s e₁).1 b = some .managerClosed := by
  cases hc : s.conn <;>
    simp [close, getConnection, healthCheck, hOpen, hc]

/-- Witness for C5: a second `Close` on the concrete live manager state
is a no-op returning nil. -/
theorem close_idempotent_witness :
    close (close sampleState none).1 none = ((close sampleState none).1, [], none) :=
  (close_idempotent sampleState none none true (fun _ => none) 1 rfl).2.2.2.2.1

/-- The normalized config, written as one record of conditionals. -/
lemma normalizeConfig_eq (c : Config) :
    normalizeConfig c =
      { broker := c.broker, topic := c.topic, partition := c.partition,
        maxRetries := if c.maxRetries = 0 then 5 else c.maxRetries,
        retryDelay := if c.retryDelay = 0 then 1 * second else c.retryDelay,
        healthCheckFreq := if c.healthCheckFreq = 0 then 30 * second
          else c.healthCheckFreq } := by
  unfold normalizeConfig
  split_ifs <;> simp_all

/-- C6: `NewKafkaManager` normalizes zero `MaxRetries`, `RetryDelay`
and `HealthCheckFreq` to 5, 1s and 30s, leaves non-zero values (and
the other fields) unchanged, stores the normalized config in the
manager, and applies the defaults before any connect attempt: with
zero retry fields and an always-failing oracle the initial connect
runs exactly the defaulted 5 attempts. -/
theorem newKafkaManager_defaults (c : Config) (oracle : Nat → Option ConnFailure)
    (nc : Nat) :
    (c.maxRetries = 0 → (normalizeConfig c).maxRetries = 5) ∧
    (c.retryDelay = 0 → (normalizeConfig c).retryDelay = 1 * second) ∧
    (c.healthCheckFreq = 0 → (normalizeConfig c).healthCheckFreq = 30 * second) ∧
    (c.maxRetries ≠ 0 → (normalizeConfig c).maxRetries = c.maxRetries) ∧
    (c.retryDelay ≠ 0 → (normalizeConfig c).retryDelay = c.retryDelay) ∧
    (c.healthCheckFreq ≠ 0 → (normalizeConfig c).healthCheckFreq = c.healthCheckFreq) ∧
    (normalizeConfig c).broker = c.broker ∧
    (normalizeConfig c).topic = c.topic ∧
    (normalizeConfig c).partition = c.partition ∧
    (∀ s, newKafkaManager (some c) oracle nc = .ok s → s.config = normalizeConfig c) ∧
    (c.maxRetries = 0 → c.retryDelay = 0 → (∀ j, oracle j ≠ none) →
      newKafkaManager (some c) oracle nc = .error (.connectExhausted 5 (oracle 4))) := by
  refine ⟨?_, ?_, ?_, ?_, ?_, ?_, ?_, ?_, ?_, ?_, ?_⟩
  · intro h; simp [normalizeConfig_eq, h]
  · intro h; simp [normalizeConfig_eq, h]
  · intro h; simp [normalizeConfig_eq, h]
  · intro h; simp [normalizeConfig_eq, h]
  · intro h; simp [normalizeConfig_eq, h]
  · intro h; simp [normalizeConfig_eq, h]
  · simp [normalizeConfig_eq]
  · simp [normalizeConfig_eq]
  · simp [normalizeConfig_eq]
  · intro s h
    simp only [newKafkaManager] at h
    split at h
    · exact Except.noConfusion h
    · injection h with h2
      subst h2
      rfl
  · intro h1 h2 hfail
    have hnorm : (normalizeConfig c).maxRetries = 5 := by simp [normalizeConfig_eq, h1]
    have h5 := connectWithRetryFrom_allFail oracle 5 ((normalizeConfig c).retryDelay)
      5 0 none (by omega) (fun j _ _ => hfail j)
    simp only [newKafkaManager, connectWithRetry, hnorm, h5]
    simp

/-- Witness for C6: a zero-field config with an always-failing oracle
fails after exactly the defaulted 5 attempts, wrapping the 5th
failure. -/
theorem newKafkaManager_defaults_witness :
    newKafkaManager (some zeroConfig) alwaysFailOracle 1 =
      .error (.connectExhausted 5 (alwaysFailOracle 4)) :=
  (newKafkaManager_defaults zeroConfig alwaysFailOracle 1).2.2.2.2.2.2.2.2.2.2
    rfl rfl (fun j => by simp [alwaysFailOracle])

/-- The retry wrapper reports a clean nil stop only when some `Read`
invocation actually returned nil. -/
lemma readWithRetryLoop_cleanNil_source (d : Duration) :
    ∀ script : List RetryIter, (readWithRetryLoop d script).2 = .cleanNil →
      ∃ it ∈ script, it.readResult = none := by
  intro script
  induction script with
  | nil => intro h; exact absurd h (by simp [readWithRetryLoop])
  | cons it rest ih =>
    intro h
    cases hTop : it.ctxDoneAtTop with
    | true => exact absurd h (by simp [readWithRetryLoop, hTop])
    | false =>
      cases hR : it.readResult with
      | none => exact ⟨it, List.mem_cons_self it rest, hR⟩
      | some e =>
        cases hA : it.ctxDoneAfterErr with
        | true => exact absurd h (by simp [readWithRetryLoop, hTop, hR, hA])
        | false =>
          simp only [readWithRetryLoop, hTop, hR, hA] at h
          simp only [Bool.false_eq_true, if_false] at h
          obtain ⟨it', hm, hc⟩ := ih h
          exact ⟨it', List.mem_cons_of_mem it hm, hc⟩

/-- C7: `ReadWithRetry` normalizes a zero retry delay to 5 seconds; it
returns the context's error immediately if the context is done before
an attempt; a `Read` error with live context sleeps the delay and
invokes `Read` again; a `Read` error with done context returns the
context's error; `Read` returning nil makes the wrapper return nil —
and that is the only non-cancellation terminal path. -/
theorem readWithRetry_spec (retryDelay d : Duration) (script rest : List RetryIter)
    (it : RetryIter) :
    (readWithRetry 0 script).1 = 5 * second ∧
    (retryDelay ≠ 0 → (readWithRetry retryDelay script).1 = retryDelay) ∧
    (it.ctxDoneAtTop = true → readWithRetryLoop d (it :: rest) = ([], .ctxErr)) ∧
    (it.ctxDoneAtTop = false → it.readResult ≠ none → it.ctxDoneAfterErr = false →
      readWithRetryLoop d (it :: rest) =
        (d :: (readWithRetryLoop d rest).1, (readWithRetryLoop d rest).2)) ∧
    (it.ctxDoneAtTop = false → it.readResult ≠ none → it.ctxDoneAfterErr = true →
      readWithRetryLoop d (it :: rest) = ([], .ctxErr)) ∧
    (it.ctxDoneAtTop = false → it.readResult = none →
      readWithRetryLoop d (it :: rest) = ([], .cleanNil)) ∧
    ((readWithRetryLoop d script).2 = .cleanNil →
      ∃ it' ∈ script, it'.readResult = none) := by
  refine ⟨rfl, ?_, ?_, ?_, ?_, ?_, readWithRetryLoop_cleanNil_source d script⟩
  · intro h; simp [readWithRetry, h]
  · intro h; simp [readWithRetryLoop, h]
  · intro h1 h2 h3
    cases hR : it.readResult with
    | none => exact absurd hR h2
    | some e => simp [readWithRetryLoop, h1, h3, hR]
  · intro h1 h2 h3
    cases hR : it.readResult with
    | none => exact absurd hR h2
    | some e => simp [readWithRetryLoop, h1, h3, hR]
  · intro h1 h2
    simp [readWithRetryLoop, h1, h2]

/-- Witness for C7: a `Read` returning nil under a live context makes
the wrapper stop cleanly. -/
theorem readWithRetry_spec_witness :
    readWithRetryLoop second
      [{ ctxDoneAtTop := false, readResult := none, ctxDoneAfterErr := false }] =
      ([], .cleanNil) :=
  (readWithRetry_spec 1 second [] []
    { ctxDoneAtTop := false, readResult := none, ctxDoneAfterErr := false }).2.2.2.2.2.1
    rfl rfl

/-- C8: nil-argument configuration errors are fatal to the detecting
call and returned immediately: `NewKafkaManager` with a nil config
returns an error and no manager, and `Read` with a nil manager or nil
handler returns an error with no subscription opened and no loop
iteration run. -/
theorem nil_argument_errors (oracle : Nat → Option ConnFailure) (nc : Nat)
    (handler : Option Handler) (s : KMState) (script : List ReadIter) :
    newKafkaManager none oracle nc = .error .nilConfig ∧
    read none handler script = ([], .error .nilManager) ∧
    read (some s) none script = ([], .error .nilHandler) :=
  ⟨rfl, rfl, rfl⟩

end Watcher







